import Mathlib

/-!
Shallow embedding of `src/recover/recover_output64.py` (the relocation engine of
poisonplug-scatterbrain): it lays recovered functions out at new addresses in a
fresh output image and patches control-flow, data-flow and import references.

Modelling conventions used throughout:
* machine addresses and bytes are `Nat`; 32-bit wraparound is explicit via
  `% 4294967296` on `Int` (Python's `& 0xFFFFFFFF` on arbitrary-precision ints);
* the mutable output image (`d.newimgbuffer`, a Python `bytearray`) is a total
  map `Nat → Nat` together with a separately recorded size (used only to bound
  `bytes.find`); slice writes are modelled unbounded, matching in-bounds use;
* Python dicts are association lists; insertion conses the new pair in front
  (a later insertion of the same key shadows the earlier one on lookup, which
  is Python's overwrite behaviour), `dict.get` is `assocGet`;
* the capstone decoder and keystone assembler are external collaborators and
  enter as opaque function parameters of types `Decoder` and `Assembler`;
* a Python exception is an `Except String _` or an `Option String` error
  component; the per-function `try/except: print(e)` in `build_relocations`
  keeps all state mutated before the raise, so loop models return the state
  reached so far together with the error.
-/

namespace RecoverOutput

/-- Coarse x86 instruction class backing capstone's `is_call`/`is_jcc`/`is_jmp`. -/
inductive XClass
  | call | jcc | jmp | other
deriving DecidableEq

/-- Instruction ids appearing in the data-flow allow-list `KNOWN`
(`X86_INS_INC`, `X86_INS_LEA`, `X86_INS_CMOVE`, `X86_INS_MOV`, `X86_INS_CMP`,
`X86_INS_AND`), plus a catch-all for every other id. -/
inductive Mnem
  | inc | lea | cmove | mov | cmp | and_ | otherIns
deriving DecidableEq

/-- A decoded instruction as the engine consumes it from capstone: original
address `ea`, original encoding `bytes`, the rip-relative displacement field
metadata (`dispOffset`, `dispSize`, resolved absolute destination `dispDest`),
its class, the first immediate operand (`get_op1_imm`) and its instruction id. -/
structure Instr where
  ea : Nat
  bytes : List Nat
  dispOffset : Nat
  dispSize : Nat
  dispDest : Nat
  xclass : XClass
  op1Imm : Nat
  insId : Mnem
deriving DecidableEq

/-- Capstone's `instr.size`: the byte length of the encoding. -/
def Instr.size (i : Instr) : Nat := i.bytes.length

/-- Capstone's `is_call`. -/
def Instr.is_call (i : Instr) : Bool := decide (i.xclass = XClass.call)

/-- Capstone's `is_jcc`. -/
def Instr.is_jcc (i : Instr) : Bool := decide (i.xclass = XClass.jcc)

/-- Capstone's `is_jmp`. -/
def Instr.is_jmp (i : Instr) : Bool := decide (i.xclass = XClass.jmp)

/-- `RecoveredInstr` from `recover_core`: the fields `apply_all_fixups_to_rfn`,
`build_relocations` and the emitter read or write.  `updated_bytes = []` models
Python `None`/empty (falsy), exactly as the emitter's
`r.updated_bytes if r.updated_bytes else r.instr.bytes` tests it. -/
structure RecoveredInstr where
  instr : Instr
  is_boundary_jmp : Bool
  is_obf_import : Bool
  updated_bytes : List Nat
  reloc_ea : Nat
  func_start_ea : Nat
deriving DecidableEq

/-- `RecoveredFunc` from `recover_core`: original start address, normalized
instruction sequence, the three relocation subsets, and the relocated start
address assigned by the emitter.  In Python the instruction objects in the
`relocs_*` lists alias the ones in `normalized_flow`, so their `reloc_ea` is
the one the emitter assigned; here they are separate copies and fixup-phase
theorems take `reloc_ea` as given. -/
structure RecoveredFunc where
  func_start_ea : Nat
  normalized_flow : List RecoveredInstr
  relocs_imports : List RecoveredInstr
  relocs_ctrlflow : List RecoveredInstr
  relocs_dataflow : List RecoveredInstr
  reloc_ea : Nat
deriving DecidableEq

/-- Key of `d.global_relocs`: (owning function original ea, instruction
original ea, is-boundary flag). -/
abbrev RelocKey : Type := Nat × Nat × Bool

/-- A value of `d.imports`: either the placeholder string `Empty` or a
`RecoveredImport` carrying the api and dll names. -/
inductive ImpVal
  | empty
  | entry (api_name : String) (dll_name : String)
deriving DecidableEq

/-- The three protection modes dispatched on by `rebuild_output`. -/
inductive ProtectionType
  | HEADERLESS | SELECTIVE | FULL
deriving DecidableEq

/-- The output image buffer: byte at each offset. -/
def Buffer : Type := Nat → Nat

/-- Python `dict.get`: first (most recently inserted, since insertion conses)
binding of the key, if any. -/
def assocGet {α β : Type} [DecidableEq α] (m : List (α × β)) (k : α) : Option β :=
  (m.find? fun kv => decide (kv.1 = k)).map Prod.snd

/-- `d.global_relocs.get(key)`. -/
def relocGet (m : List (RelocKey × Nat)) (k : RelocKey) : Option Nat :=
  assocGet m k

/-- Python truthiness filter applied by `if not reloc_dest: raise ...` and
`if not imp_entry: ...`: both a missing key (`None`) and a looked-up `0` are
falsy and take the failure branch. -/
def truthyGet (o : Option Nat) : Option Nat :=
  match o with
  | none => none
  | some n => if n = 0 then none else some n

/-- Python slice assignment `l[a:b] = repl` for `a ≤ b` (every slice write in
this file has `a ≤ b`): the elements at positions `[a, b)` are replaced by
`repl`. -/
def sliceAssign (l : List Nat) (a b : Nat) (repl : List Nat) : List Nat :=
  l.take a ++ repl ++ l.drop b

/-- Buffer slice write `buf[off : off + bytes.length] = bytes`. -/
def writeBytes (buf : Buffer) (off : Nat) (l : List Nat) : Buffer :=
  fun i => if off ≤ i ∧ i < off + l.length then l.getD (i - off) 0 else buf i

/-- Buffer slice write of zeros, `buf[a:b] = bytearray(b - a)`. -/
def zeroFill (buf : Buffer) (a b : Nat) : Buffer :=
  fun i => if a ≤ i ∧ i < b then 0 else buf i

/-- `struct.pack("<I", x)`: the 4 little-endian bytes of `x < 2^32`
(`PACK_FIXUP` in the source). -/
def pack32 (x : Nat) : List Nat :=
  [x % 256, x / 256 % 256, x / 65536 % 256, x / 16777216 % 256]

/-- Little-endian read of the 4 bytes of `l` starting at `o` (for stating what
a patched displacement field decodes to). -/
def unpack32 (l : List Nat) (o : Nat) : Nat :=
  l.getD o 0 + 256 * l.getD (o + 1) 0 + 65536 * l.getD (o + 2) 0 +
    16777216 * l.getD (o + 3) 0

/-- `(dest - base) & 0xFFFFFFFF` on Python ints: two's-complement 32-bit
truncation of a possibly negative difference. -/
def fixup32 (dest base : Nat) : Nat :=
  (((dest : Int) - (base : Int)) % 4294967296).toNat

/-- `CALC_FIXUP = lambda dest, size: (dest - (r.reloc_ea + size)) & 0xFFFFFFFF`
from `apply_all_fixups_to_rfn`. -/
def CALC_FIXUP (r : RecoveredInstr) (dest size : Nat) : Nat :=
  fixup32 dest (r.reloc_ea + size)

/-- Sign extension of a 32-bit unsigned value, for reading a patched
displacement back as the signed displacement an x64 cpu would use. -/
def signExt32 (x : Nat) : Int :=
  if x < 2147483648 then (x : Int) else (x : Int) - 4294967296

/-- Absolute address a rip-relative memory operand resolves to when an
instruction of length `size` carrying 32-bit displacement `disp` is decoded at
address `reloc_ea` (glossary: rip at completion plus signed displacement). -/
def ripResolved (reloc_ea size disp : Nat) : Int :=
  ((reloc_ea + size : Nat) : Int) + signExt32 disp

/-- The capstone decode collaborator, reduced to what `update_reloc_in_img`
uses: `decode_buffer(bytes, ea).size`. -/
def Decoder : Type := List Nat → Nat → Nat

/-- The keystone assemble collaborator, reduced to what
`resolve_imm_fixup_and_apply` uses for calls: `d.ks.asm(text, reloc_ea)[0]`
viewed as a function of the instruction, the destination and the relocation
address. -/
def Assembler : Type := Instr → Nat → Nat → List Nat

/-- The slice of `ProtectedInput64` this module reads or mutates: the recovered
cfg (`dict[func_ea, RecoveredFunc]` as an association list in insertion order),
the global relocation map, the output image buffer with its size, the data
section range backing `IS_IN_DATA` (`dest in d.data_range_rva`), the import
tables, the protection mode and the selective-mode function address. -/
structure ProtectedInput where
  cfg : List (Nat × RecoveredFunc)
  global_relocs : List (RelocKey × Nat)
  newimgbuffer : Buffer
  imgSize : Nat
  data_lo : Nat
  data_hi : Nat
  imports : List (Nat × ImpVal)
  import_to_rva_map : List (String × Nat)
  imports_to_preserve : List (Nat × String × Nat)
  protection_type : ProtectionType
  selective_func_rva : Nat
  func_rva : Option Nat

/-- `IS_IN_DATA = lambda dest: dest in d.data_range_rva` (a `range`, so
membership is `lo ≤ dest < hi`). -/
def IS_IN_DATA (d : ProtectedInput) (dest : Nat) : Bool :=
  decide (d.data_lo ≤ dest) && decide (dest < d.data_hi)

/-- `resolve_disp_fixup_and_apply(r, dest)`: asserts `disp_size == 4`, then
writes `PACK_FIXUP(CALC_FIXUP(dest, r.instr.size))` over the 4 displacement
bytes of `r.updated_bytes` at `disp_offset`.  The destination is an `Option`
because the import path passes `d.import_to_rva_map.get(...)` straight through;
a `none` destination reproduces the `TypeError` Python raises inside
`CALC_FIXUP` when that lookup returned `None` (after the assert, before any
byte is written). -/
def resolve_disp_fixup_and_apply (r : RecoveredInstr) (dest : Option Nat) :
    Except String RecoveredInstr :=
  if r.instr.dispSize ≠ 4 then Except.error "AssertionError"
  else
    match dest with
    | none => Except.error "TypeError"
    | some dst =>
      let fixup := CALC_FIXUP r dst r.instr.size
      let offset := r.instr.dispOffset
      Except.ok
        { r with
          updated_bytes := sliceAssign r.updated_bytes offset (offset + 4) (pack32 fixup) }

/-- `resolve_imm_fixup_and_apply(r, reloc_dest)`: asserts the instruction is a
call, jcc or jmp; re-assembles calls from scratch at `r.reloc_ea`; for jmp/jcc
computes `CALC_FIXUP(reloc_dest, len(r.updated_bytes))` and overwrites the last
4 bytes of the 5-byte (jmp) or 6-byte (jcc) placeholder encoding.  The
unreachable trailing branch (neither jmp nor jcc after the assert) mirrors
Python falling through both `if`s without patching. -/
def resolve_imm_fixup_and_apply (asm : Assembler) (r : RecoveredInstr)
    (reloc_dest : Nat) : Except String RecoveredInstr :=
  if ¬(r.instr.is_call || r.instr.is_jcc || r.instr.is_jmp) then
    Except.error "AssertionError"
  else if r.instr.is_call then
    Except.ok { r with updated_bytes := asm r.instr reloc_dest r.reloc_ea }
  else
    let fixup := CALC_FIXUP r reloc_dest r.updated_bytes.length
    if r.instr.is_jmp then
      if r.updated_bytes.length ≠ 5 then Except.error "AssertionError"
      else
        Except.ok { r with updated_bytes := sliceAssign r.updated_bytes 1 5 (pack32 fixup) }
    else if r.instr.is_jcc then
      if r.updated_bytes.length ≠ 6 then Except.error "AssertionError"
      else
        Except.ok { r with updated_bytes := sliceAssign r.updated_bytes 2 6 (pack32 fixup) }
    else Except.ok r

/-- `update_reloc_in_img(r, tag)`: re-decode the patched bytes at the relocated
address; raise `ValueError` on a length mismatch, otherwise write the patched
bytes into the image at `r.reloc_ea`.  The decoder parameter returns the
decoded instruction length (`d.md.decode_buffer(..).size`); the formatted
diagnostic text of the raise is abbreviated to its exception class. -/
def update_reloc_in_img (dec : Decoder) (buf : Buffer) (r : RecoveredInstr) :
    Except String Buffer :=
  let sz := dec r.updated_bytes r.reloc_ea
  if r.updated_bytes.length ≠ sz then Except.error "ValueError"
  else Except.ok (writeBytes buf r.reloc_ea r.updated_bytes)

/-- One iteration of the `Imports` loop of `apply_all_fixups_to_rfn` for one
instruction: `.ok none` is Python `continue` without touching the image
(boundary jumps, missing or `Empty` import entries — the missing-entry case
only does `input(...)` and continues, it raises nothing), `.ok (some buf)` is a
successful patch written through `update_reloc_in_img`, `.error` is a raised
exception.  A missing new rva is printed and then passed on as `None`, which
blows up inside `resolve_disp_fixup_and_apply` (the `TypeError`). -/
def importsStep (dec : Decoder) (d : ProtectedInput) (r : RecoveredInstr) :
    Except String (Option Buffer) :=
  if r.is_boundary_jmp then Except.ok none
  else
    let r1 := { r with updated_bytes := r.instr.bytes }
    match assocGet d.imports r.instr.ea with
    | none => Except.ok none
    | some ImpVal.empty => Except.ok none
    | some (ImpVal.entry api _dll) =>
      match resolve_disp_fixup_and_apply r1 (assocGet d.import_to_rva_map api) with
      | Except.error e => Except.error e
      | Except.ok r2 =>
        match update_reloc_in_img dec d.newimgbuffer r2 with
        | Except.error e => Except.error e
        | Except.ok buf => Except.ok (some buf)

/-- One iteration of the `ControlFlow` loop of `apply_all_fixups_to_rfn`:
already-resolved imports are skipped; calls resolve their target through
`global_relocs[(dest, dest, False)]`, jumps and conditional jumps through
`global_relocs[(rfn.func_start_ea, dest, False)]` — the boundary flag in the
lookup key is the literal `False` in both branches.  `if not reloc_dest` makes
both a missing key and a zero value raise (`truthyGet`). -/
def ctrlStep (dec : Decoder) (asm : Assembler) (rfn : RecoveredFunc)
    (d : ProtectedInput) (r : RecoveredInstr) : Except String (Option Buffer) :=
  if r.is_obf_import then Except.ok none
  else
    let dest := r.instr.op1Imm
    let rd? :=
      if r.instr.is_call then truthyGet (relocGet d.global_relocs (dest, dest, false))
      else truthyGet (relocGet d.global_relocs (rfn.func_start_ea, dest, false))
    match rd? with
    | none => Except.error (if r.instr.is_call then "[Call_Reloc]" else "[JxxJmp_Reloc]")
    | some rd =>
      match resolve_imm_fixup_and_apply asm r rd with
      | Except.error e => Except.error e
      | Except.ok r2 =>
        match update_reloc_in_img dec d.newimgbuffer r2 with
        | Except.error e => Except.error e
        | Except.ok buf => Except.ok (some buf)

/-- The data-flow allow-list `KNOWN`.  An id outside it only triggers a print
and an interactive `input(...)` prompt in the source and execution then falls
through to the patch anyway, so membership has no semantic effect here. -/
def KNOWN : List Mnem := [Mnem.inc, Mnem.lea, Mnem.cmove, Mnem.mov, Mnem.cmp, Mnem.and_]

/-- One iteration of the `DataFlow` loop of `apply_all_fixups_to_rfn`: start
from the original bytes, take the displacement destination `disp_dest`; if it
lies in the data region use it unchanged (no map lookup), otherwise resolve it
through `global_relocs[(dest, dest, False)]` and raise on a falsy result; then
patch the displacement and write through `update_reloc_in_img`. -/
def dataStep (dec : Decoder) (d : ProtectedInput) (r : RecoveredInstr) :
    Except String (Option Buffer) :=
  let r1 := { r with updated_bytes := r.instr.bytes }
  let rd0 := r.instr.dispDest
  let rd? :=
    if IS_IN_DATA d rd0 then some rd0
    else truthyGet (relocGet d.global_relocs (rd0, rd0, false))
  match rd? with
  | none => Except.error "[ResolveFixup]"
  | some rd =>
    match resolve_disp_fixup_and_apply r1 (some rd) with
    | Except.error e => Except.error e
    | Except.ok r2 =>
      match update_reloc_in_img dec d.newimgbuffer r2 with
      | Except.error e => Except.error e
      | Except.ok buf => Except.ok (some buf)

/-- A `for r in ...` fixup loop: each step may skip, replace the image buffer,
or raise; a raise aborts the loop keeping the state written so far (Python
propagates the exception to the caller with all earlier writes retained). -/
def fixLoop (step : ProtectedInput → RecoveredInstr → Except String (Option Buffer)) :
    ProtectedInput → List RecoveredInstr → ProtectedInput × Option String
  | d, [] => (d, none)
  | d, r :: rest =>
    match step d r with
    | Except.error e => (d, some e)
    | Except.ok none => fixLoop step d rest
    | Except.ok (some buf) => fixLoop step { d with newimgbuffer := buf } rest

/-- `Relocation.apply_all_fixups_to_rfn(d, rfn)`: the three category loops in
their fixed order — imports, control flow, data flow — with an exception in an
earlier loop aborting the whole call. -/
def apply_all_fixups_to_rfn (dec : Decoder) (asm : Assembler)
    (d : ProtectedInput) (rfn : RecoveredFunc) : ProtectedInput × Option String :=
  match fixLoop (importsStep dec) d rfn.relocs_imports with
  | (d1, some e) => (d1, some e)
  | (d1, none) =>
    match fixLoop (ctrlStep dec asm rfn) d1 rfn.relocs_ctrlflow with
    | (d2, some e) => (d2, some e)
    | (d2, none) => fixLoop (dataStep dec) d2 rfn.relocs_dataflow

/-- The second loop of `build_relocations`: `for rfn in d.cfg.values(): try:
apply_all_fixups_to_rfn(d, rfn) except Exception as e: print(e)` — every
function is attempted, a raised error is printed and swallowed. -/
def fixupAllFuncs (dec : Decoder) (asm : Assembler) :
    ProtectedInput → List RecoveredFunc → ProtectedInput
  | d, [] => d
  | d, rfn :: rest =>
    fixupAllFuncs dec asm (apply_all_fixups_to_rfn dec asm d rfn).1 rest

/-- `align_to_16_byte_boundary(value) = (value + 15) & ~15`, written
arithmetically for `Nat` (identical on the non-negative ints Python feeds it). -/
def align_to_16_byte_boundary (value : Nat) : Nat :=
  (value + 15) / 16 * 16

/-- The bytes the emitter writes for an instruction:
`r.updated_bytes if r.updated_bytes else r.instr.bytes`. -/
def opsOf (r : RecoveredInstr) : List Nat :=
  if r.updated_bytes.isEmpty then r.instr.bytes else r.updated_bytes

/-- Total byte length the emitter lays down for a normalized flow. -/
def emittedSize (flow : List RecoveredInstr) : Nat :=
  (flow.map fun r => (opsOf r).length).sum

/-- Result of emitting one normalized flow. -/
structure FlowResult where
  flow : List RecoveredInstr
  buf : Buffer
  relocs : List (RelocKey × Nat)
  off : Nat

/-- The inner emitter loop of `build_relocations`: for each instruction insert
`global_relocs[(func_ea, r.instr.ea, r.is_boundary_jmp)] = curr_off`, record
`r.reloc_ea = curr_off`, write `ops` into the image at `curr_off` and advance
by `len(ops)`. -/
def emitFlow (func_ea : Nat) :
    List RecoveredInstr → Buffer → List (RelocKey × Nat) → Nat → FlowResult
  | [], buf, m, curr => ⟨[], buf, m, curr⟩
  | r :: rest, buf, m, curr =>
    let m1 := ((func_ea, r.instr.ea, r.is_boundary_jmp), curr) :: m
    let r1 := { r with reloc_ea := curr }
    let ops := opsOf r
    let buf1 := writeBytes buf curr ops
    let res := emitFlow func_ea rest buf1 m1 (curr + ops.length)
    ⟨r1 :: res.flow, res.buf, res.relocs, res.off⟩

/-- Result of the emitter pass over the whole cfg. -/
structure EmitResult where
  cfg : List (Nat × RecoveredFunc)
  buf : Buffer
  relocs : List (RelocKey × Nat)
  off : Nat

/-- The outer emitter loop of `build_relocations`: per function record
`rfn.reloc_ea = curr_off`, insert `global_relocs[(func_ea, func_ea, False)] =
curr_off`, emit the flow, then `curr_off = align_to_16_byte_boundary(curr_off + 8)`. -/
def emitFuncs :
    List (Nat × RecoveredFunc) → Buffer → List (RelocKey × Nat) → Nat → EmitResult
  | [], buf, m, curr => ⟨[], buf, m, curr⟩
  | (func_ea, rfn) :: rest, buf, m, curr =>
    let m1 := ((func_ea, func_ea, false), curr) :: m
    let fr := emitFlow func_ea rfn.normalized_flow buf m1 curr
    let rfn1 := { rfn with reloc_ea := curr, normalized_flow := fr.flow }
    let next := align_to_16_byte_boundary (fr.off + 8)
    let res := emitFuncs rest fr.buf fr.relocs next
    ⟨(func_ea, rfn1) :: res.cfg, res.buf, res.relocs, res.off⟩

/-- The relocation-map insertions of one flow in emission order, as (key,
relocated address) pairs at the emitter's running cursor. -/
def emitKeysFlow (func_ea : Nat) : List RecoveredInstr → Nat → List (RelocKey × Nat)
  | [], _ => []
  | r :: rest, curr =>
    ((func_ea, r.instr.ea, r.is_boundary_jmp), curr) ::
      emitKeysFlow func_ea rest (curr + (opsOf r).length)

/-- The relocation-map insertions of the whole emitter pass in emission order. -/
def emitKeys : List (Nat × RecoveredFunc) → Nat → List (RelocKey × Nat)
  | [], _ => []
  | (f, rfn) :: rest, curr =>
    (((f, f, false), curr) :: emitKeysFlow f rfn.normalized_flow curr) ++
      emitKeys rest (align_to_16_byte_boundary (curr + emittedSize rfn.normalized_flow + 8))

/-- Spec-side list of relocation-map keys: per function exactly one key
`(func, func, false)` followed by exactly one key
`(func, instruction original ea, is-boundary)` per instruction of its
normalized flow, written without reference to the emitter's cursor. -/
def relocKeysSpec (cfg : List (Nat × RecoveredFunc)) : List RelocKey :=
  cfg.flatMap fun p =>
    (p.1, p.1, false) ::
      p.2.normalized_flow.map fun r => (p.1, r.instr.ea, r.is_boundary_jmp)

/-- The loop body of `Relocation.preserve_original_imports`: for each preserved
call site look up the new rva of its api; `if not new_rva` only writes a log
line and execution falls through to `new_rva - (instr_ea + instr_size)`, which
for a missing (`None`) rva raises a `TypeError` that nothing catches; otherwise
the 4-byte displacement is written at `instr_ea + 2`. -/
def preserveGo : ProtectedInput → List (Nat × String × Nat) → ProtectedInput × Option String
  | d, [] => (d, none)
  | d, (instr_ea, api_name, instr_size) :: rest =>
    match assocGet d.import_to_rva_map api_name with
    | none => (d, some "TypeError")
    | some new_rva =>
      let fixup := fixup32 new_rva (instr_ea + instr_size)
      preserveGo
        { d with newimgbuffer := writeBytes d.newimgbuffer (instr_ea + 2) (pack32 fixup) }
        rest

/-- `Relocation.preserve_original_imports(d)`. -/
def preserve_original_imports (d : ProtectedInput) : ProtectedInput × Option String :=
  preserveGo d d.imports_to_preserve

/-- `Relocation.build_relocations(d, starting_off, preserve_original_imports)`:
first the emitter pass over every function (building the new code segment and
the complete `global_relocs` map), only then the per-function fixup loop, and
finally the optional import-preservation pass whose exception is uncaught. -/
def build_relocations (dec : Decoder) (asm : Assembler) (d : ProtectedInput)
    (starting_off : Nat) (preserve : Bool) : ProtectedInput × Option String :=
  let e := emitFuncs d.cfg d.newimgbuffer d.global_relocs starting_off
  let d1 := { d with cfg := e.cfg, newimgbuffer := e.buf, global_relocs := e.relocs }
  let d2 := fixupAllFuncs dec asm d1 (e.cfg.map Prod.snd)
  if preserve then preserve_original_imports d2 else (d2, none)

/-- `END_MARKER = bytes.fromhex("CC CC CC CC 66 66 0F 1F 84 00 00 00 00 00")`. -/
def END_MARKER : List Nat :=
  [0xCC, 0xCC, 0xCC, 0xCC, 0x66, 0x66, 0x0F, 0x1F, 0x84, 0x00, 0x00, 0x00, 0x00, 0x00]

/-- Whether `pat` occurs in the buffer starting at offset `o`. -/
def matchesAt (buf : Buffer) (pat : List Nat) (o : Nat) : Bool :=
  (List.range pat.length).all fun j => buf (o + j) == pat.getD j 0

/-- Python `bytes.find(pat, start)` on a buffer of length `size`: the least
offset `o ≥ start` with a full match fitting inside the buffer, else `none`
(Python's `-1`). -/
def bufFind (buf : Buffer) (size : Nat) (pat : List Nat) (start : Nat) : Option Nat :=
  (List.range (size + 1 - pat.length)).find? fun o =>
    decide (start ≤ o) && matchesAt buf pat o

/-- The SELECTIVE-mode clearing step of `rebuild_output`: find `END_MARKER`
from the selected function's start, falling back to the hardcoded offset
`0x15311` when not found (the `raise` is commented out in the source and no
warning is produced), then `newimgbuffer[start:end] = bytearray(end - start)`
with `end = found + len(END_MARKER)` — the zeroed region begins at
`d.selective_func_rva` itself.  `bytearray` of a negative length (possible
only through the fallback) is a `ValueError`. -/
def selective_clear (buf : Buffer) (imgSize start : Nat) : Except String (Buffer × Nat) :=
  let found :=
    match bufFind buf imgSize END_MARKER start with
    | some f => f
    | none => 0x15311
  let e := found + END_MARKER.length
  if e < start then Except.error "ValueError"
  else Except.ok (zeroFill buf start e, found)

/-- `rebuild_output(d, preserve_original_imports)`: asserts the cfg is
non-empty, builds the mode-specific output template (the `peutils` collaborator
output is taken as the given `d.newimgbuffer` / `d.import_to_rva_map`), in
SELECTIVE mode clears past the protected function and records
`d.func_rva = d.selective_func_rva` — while the local `func_rva` passed to
`build_relocations` stays `0x1000` in every mode. -/
def rebuild_output (dec : Decoder) (asm : Assembler) (d : ProtectedInput)
    (preserve : Bool) : Except String (ProtectedInput × Option String) :=
  if d.cfg.isEmpty then Except.error "AssertionError"
  else
    let func_rva : Nat := 0x1000
    match d.protection_type with
    | ProtectionType.HEADERLESS => Except.ok (build_relocations dec asm d func_rva preserve)
    | ProtectionType.SELECTIVE =>
      match selective_clear d.newimgbuffer d.imgSize d.selective_func_rva with
      | Except.error e => Except.error e
      | Except.ok (buf, _found) =>
        let d1 := { d with newimgbuffer := buf, func_rva := some d.selective_func_rva }
        Except.ok (build_relocations dec asm d1 func_rva preserve)
    | ProtectionType.FULL => Except.ok (build_relocations dec asm d func_rva preserve)

/-! Concrete instances used by witnesses and counterexamples. -/

/-- A decode collaborator that reports the byte length it was given (the
behaviour of a correct decoder on a well-formed patched encoding). -/
def dec0 : Decoder := fun l _ => l.length

/-- A decode collaborator reporting one byte too many, to drive the
length-mismatch branch of `update_reloc_in_img`. -/
def dec1 : Decoder := fun l _ => l.length + 1

/-- An assemble collaborator returning a fixed 5-byte call encoding. -/
def asm0 : Assembler := fun _ _ _ => [0xE8, 0, 0, 0, 0]

/-- An all-zero image buffer. -/
def emptyBuf : Buffer := fun _ => 0

/-- A recovered function with no instructions at original address `f`. -/
def rfnEmptyAt (f : Nat) : RecoveredFunc :=
  { func_start_ea := f, normalized_flow := [], relocs_imports := [],
    relocs_ctrlflow := [], relocs_dataflow := [], reloc_ea := 0 }

/-- A baseline `ProtectedInput` with every table empty. -/
def dBase : ProtectedInput :=
  { cfg := [], global_relocs := [], newimgbuffer := emptyBuf, imgSize := 0,
    data_lo := 0, data_hi := 0, imports := [], import_to_rva_map := [],
    imports_to_preserve := [], protection_type := ProtectionType.FULL,
    selective_func_rva := 0, func_rva := none }

/-- A synthetic boundary jmp at original address 0x30 in the function at 0x20,
carrying the upstream 5-byte placeholder encoding and targeting 0x40. -/
def rC2 : RecoveredInstr :=
  { instr := { ea := 0x30, bytes := [0xE9, 0, 0, 0, 0], dispOffset := 0,
               dispSize := 0, dispDest := 0, xclass := XClass.jmp,
               op1Imm := 0x40, insId := Mnem.otherIns },
    is_boundary_jmp := true, is_obf_import := false,
    updated_bytes := [0xE9, 0x90, 0x90, 0x90, 0x90], reloc_ea := 0x100,
    func_start_ea := 0x20 }

/-- The function owning `rC2`. -/
def rfnC2 : RecoveredFunc :=
  { rfnEmptyAt 0x20 with relocs_ctrlflow := [rC2], reloc_ea := 0x100 }

/-- State whose relocation map binds only the boundary-flagged key
`(0x20, 0x40, true)` for the target of `rC2`. -/
def dC2 : ProtectedInput :=
  { dBase with cfg := [(0x20, rfnC2)],
               global_relocs := [((0x20, 0x40, true), 0x2000)] }

/-- A non-boundary unconditional jmp at 0x30 in the function at 0x20 with the
5-byte placeholder, targeting 0x40, relocated to 0x100. -/
def rW2 : RecoveredInstr := { rC2 with is_boundary_jmp := false }

/-- State binding the flag-`false` key for the target of `rW2` to 0x200. -/
def dW2 : ProtectedInput :=
  { dBase with global_relocs := [((0x20, 0x40, false), 0x200)] }

/-- A rip-relative `mov` reference (7-byte encoding, displacement field at
offset 3) whose destination 0x2500 lies in the data region, relocated to 0x10. -/
def rW3 : RecoveredInstr :=
  { instr := { ea := 0x50, bytes := [0x48, 0x8B, 0x05, 0, 0, 0, 0],
               dispOffset := 3, dispSize := 4, dispDest := 0x2500,
               xclass := XClass.other, op1Imm := 0, insId := Mnem.mov },
    is_boundary_jmp := false, is_obf_import := false, updated_bytes := [],
    reloc_ea := 0x10, func_start_ea := 0 }

/-- State whose data region is `[0x2000, 0x3000)`. -/
def dW3 : ProtectedInput := { dBase with data_lo := 0x2000, data_hi := 0x3000 }

/-- `rW3` with `updated_bytes` primed to the original encoding, as both
the import loop and the data-flow loop do before
`resolve_disp_fixup_and_apply`. -/
def rW4 : RecoveredInstr := { rW3 with updated_bytes := rW3.instr.bytes }

/-- A three-byte already-patched instruction for the length-gate witness. -/
def rW5 : RecoveredInstr := { rW4 with updated_bytes := [1, 2, 3] }

/-- A one-instruction function at 0x10 emitting the single byte 0xC3. -/
def rfnA : RecoveredFunc :=
  { rfnEmptyAt 0x10 with
    normalized_flow :=
      [{ instr := { ea := 0x10, bytes := [0xC3], dispOffset := 0, dispSize := 0,
                    dispDest := 0, xclass := XClass.other, op1Imm := 0,
                    insId := Mnem.otherIns },
         is_boundary_jmp := false, is_obf_import := false, updated_bytes := [],
         reloc_ea := 0, func_start_ea := 0x10 }] }

/-- A two-function cfg for the alignment witness. -/
def cfg7 : List (Nat × RecoveredFunc) := [(0x10, rfnA), (0x20, rfnEmptyAt 0x20)]

/-- A non-boundary import call site at 0x30 (6-byte `call [rip+disp32]`
encoding, displacement field at offset 2). -/
def rC8 : RecoveredInstr :=
  { instr := { ea := 0x30, bytes := [0xFF, 0x15, 0, 0, 0, 0], dispOffset := 2,
               dispSize := 4, dispDest := 0, xclass := XClass.call,
               op1Imm := 0, insId := Mnem.otherIns },
    is_boundary_jmp := false, is_obf_import := true, updated_bytes := [],
    reloc_ea := 0x100, func_start_ea := 0x20 }

/-- State with an empty `d.imports` table, so the lookup for `rC8` misses. -/
def dC8 : ProtectedInput := dBase

/-- State knowing the import entry for `rC8` but with no rva assigned for its
api name. -/
def dW8 : ProtectedInput :=
  { dBase with imports := [(0x30, ImpVal.entry "Foo" "bar.dll")] }

/-- An image whose byte 0 (the selected function's first byte) is 0x90 and
which contains `END_MARKER` at offset 1. -/
def bufC9 : Buffer :=
  fun i => if i = 0 then 0x90 else if i < 15 then END_MARKER.getD (i - 1) 0 else 0

/-- SELECTIVE-mode state for the clearing counterexample: the protected
function starts at offset 0 and the end sentinel sits at offset 1. -/
def dC9 : ProtectedInput :=
  { dBase with cfg := [(0, rfnEmptyAt 0)], newimgbuffer := bufC9, imgSize := 15,
               protection_type := ProtectionType.SELECTIVE }

/-- SELECTIVE-mode state whose image does not contain the end sentinel and
whose selected function sits at 0x5000. -/
def dC6 : ProtectedInput :=
  { dBase with cfg := [(0x5000, rfnEmptyAt 0x5000)],
               protection_type := ProtectionType.SELECTIVE,
               selective_func_rva := 0x5000 }

/-- State with two preserved import call sites of which only the second has an
assigned rva. -/
def dC10 : ProtectedInput :=
  { dBase with imports_to_preserve := [(0x100, "A", 6), (0x200, "B", 6)],
               import_to_rva_map := [("B", 0x3000)] }

/-! Generic helper lemmas. -/

theorem align16_mod (v : Nat) : align_to_16_byte_boundary v % 16 = 0 :=
  Nat.mul_mod_left _ 16

theorem le_align16 (v : Nat) : v ≤ align_to_16_byte_boundary v := by
  unfold align_to_16_byte_boundary
  omega

theorem getD_append_lt (l1 l2 : List Nat) (i : Nat) (h : i < l1.length) :
    (l1 ++ l2).getD i 0 = l1.getD i 0 := by
  simp [List.getD_eq_getElem?_getD, List.getElem?_append, h]

theorem getD_append_ge (l1 l2 : List Nat) (i : Nat) (h : l1.length ≤ i) :
    (l1 ++ l2).getD i 0 = l2.getD (i - l1.length) 0 := by
  simp [List.getD_eq_getElem?_getD, List.getElem?_append_right h]

theorem getD_take_lt (l : List Nat) (n i : Nat) (h : i < n) :
    (l.take n).getD i 0 = l.getD i 0 := by
  simp [List.getD_eq_getElem?_getD, List.getElem?_take, h]

theorem getD_drop (l : List Nat) (n m : Nat) : (l.drop n).getD m 0 = l.getD (n + m) 0 := by
  simp [List.getD_eq_getElem?_getD, List.getElem?_drop]

theorem sliceAssign_length (l repl : List Nat) (a b : Nat) (ha : a ≤ b)
    (hb : b ≤ l.length) (hr : repl.length = b - a) :
    (sliceAssign l a b repl).length = l.length := by
  simp [sliceAssign]
  omega

theorem sliceAssign_getD_lt (l repl : List Nat) (a b i : Nat) (hi : i < a)
    (ha : a ≤ l.length) :
    (sliceAssign l a b repl).getD i 0 = l.getD i 0 := by
  unfold sliceAssign
  have ht : (l.take a).length = a := by simp [List.length_take]; omega
  rw [getD_append_lt _ _ _ (by simp [List.length_take]; omega)]
  rw [getD_append_lt _ _ _ (by omega)]
  exact getD_take_lt l a i hi

theorem sliceAssign_getD_mid (l repl : List Nat) (a b j : Nat) (ha : a ≤ l.length)
    (hj : j < repl.length) :
    (sliceAssign l a b repl).getD (a + j) 0 = repl.getD j 0 := by
  unfold sliceAssign
  have ht : (l.take a).length = a := by simp [List.length_take]; omega
  rw [getD_append_lt _ _ _ (by simp [List.length_take]; omega)]
  rw [getD_append_ge _ _ _ (by omega), ht, Nat.add_sub_cancel_left]

theorem sliceAssign_getD_ge (l repl : List Nat) (a b i : Nat) (ha : a ≤ b)
    (hb : b ≤ l.length) (hr : repl.length = b - a) (hi : b ≤ i) :
    (sliceAssign l a b repl).getD i 0 = l.getD i 0 := by
  unfold sliceAssign
  have ht : (l.take a).length = a := by simp [List.length_take]; omega
  rw [getD_append_ge _ _ _ (by simp [List.length_take]; omega)]
  rw [getD_drop]
  congr 1
  simp [List.length_take]
  omega

theorem pack32_length (x : Nat) : (pack32 x).length = 4 := rfl

theorem unpack32_pack32 (x : Nat) (hx : x < 4294967296) : unpack32 (pack32 x) 0 = x := by
  simp [unpack32, pack32, List.getD_cons_zero, List.getD_cons_succ]
  omega

theorem fixup32_lt (dest base : Nat) : fixup32 dest base < 4294967296 := by
  unfold fixup32
  have h1 : (0 : Int) ≤ ((dest : Int) - base) % 4294967296 :=
    Int.emod_nonneg _ (by norm_num)
  have h2 : ((dest : Int) - base) % 4294967296 < 4294967296 :=
    Int.emod_lt_of_pos _ (by norm_num)
  omega

theorem ripResolved_fixup32 (reloc_ea size dest : Nat)
    (h1 : reloc_ea + size < 2147483648) (h2 : dest < 2147483648) :
    ripResolved reloc_ea size (fixup32 dest (reloc_ea + size)) = (dest : Int) := by
  unfold ripResolved signExt32 fixup32
  split <;> omega

theorem CALC_FIXUP_set_ub (r : RecoveredInstr) (ub : List Nat) (dest size : Nat) :
    CALC_FIXUP { r with updated_bytes := ub } dest size = CALC_FIXUP r dest size := rfl

/-! Fixup phases never touch the relocation map. -/

theorem fixLoop_global_relocs
    (step : ProtectedInput → RecoveredInstr → Except String (Option Buffer))
    (d : ProtectedInput) (l : List RecoveredInstr) :
    (fixLoop step d l).1.global_relocs = d.global_relocs := by
  induction l generalizing d with
  | nil => rfl
  | cons r rest ih =>
    simp only [fixLoop]
    split
    · rfl
    · exact ih d
    · exact ih _

theorem apply_all_fixups_global_relocs (dec : Decoder) (asm : Assembler)
    (d : ProtectedInput) (rfn : RecoveredFunc) :
    (apply_all_fixups_to_rfn dec asm d rfn).1.global_relocs = d.global_relocs := by
  unfold apply_all_fixups_to_rfn
  split
  · rename_i d1 e heq
    have h := fixLoop_global_relocs (importsStep dec) d rfn.relocs_imports
    rw [heq] at h
    exact h
  · rename_i d1 heq
    have g1 : d1.global_relocs = d.global_relocs := by
      have h := fixLoop_global_relocs (importsStep dec) d rfn.relocs_imports
      rw [heq] at h
      exact h
    split
    · rename_i d2 e heq2
      have h := fixLoop_global_relocs (ctrlStep dec asm rfn) d1 rfn.relocs_ctrlflow
      rw [heq2] at h
      exact h.trans g1
    · rename_i d2 heq2
      have g2 : d2.global_relocs = d1.global_relocs := by
        have h := fixLoop_global_relocs (ctrlStep dec asm rfn) d1 rfn.relocs_ctrlflow
        rw [heq2] at h
        exact h
      have h := fixLoop_global_relocs (dataStep dec) d2 rfn.relocs_dataflow
      exact h.trans (g2.trans g1)

theorem fixupAllFuncs_global_relocs (dec : Decoder) (asm : Assembler)
    (d : ProtectedInput) (fs : List RecoveredFunc) :
    (fixupAllFuncs dec asm d fs).global_relocs = d.global_relocs := by
  induction fs generalizing d with
  | nil => rfl
  | cons rfn rest ih =>
    simp only [fixupAllFuncs]
    rw [ih, apply_all_fixups_global_relocs]

theorem preserveGo_global_relocs (d : ProtectedInput) (l : List (Nat × String × Nat)) :
    (preserveGo d l).1.global_relocs = d.global_relocs := by
  induction l generalizing d with
  | nil => rfl
  | cons x rest ih =>
    obtain ⟨instr_ea, api, sz⟩ := x
    simp only [preserveGo]
    split
    · rfl
    · exact ih _

/-! The emitter's relocation-map insertions. -/

theorem emitFlow_relocs (f : Nat) (flow : List RecoveredInstr) (buf : Buffer)
    (m : List (RelocKey × Nat)) (curr : Nat) :
    (emitFlow f flow buf m curr).relocs = (emitKeysFlow f flow curr).reverse ++ m := by
  induction flow generalizing buf m curr with
  | nil => simp [emitFlow, emitKeysFlow]
  | cons r rest ih =>
    simp only [emitFlow, emitKeysFlow, ih, List.reverse_cons]
    simp

theorem emitFlow_off (f : Nat) (flow : List RecoveredInstr) (buf : Buffer)
    (m : List (RelocKey × Nat)) (curr : Nat) :
    (emitFlow f flow buf m curr).off = curr + emittedSize flow := by
  induction flow generalizing buf m curr with
  | nil => simp [emitFlow, emittedSize]
  | cons r rest ih =>
    simp only [emitFlow, ih]
    simp [emittedSize]
    omega

theorem emitFuncs_relocs (cfg : List (Nat × RecoveredFunc)) (buf : Buffer)
    (m : List (RelocKey × Nat)) (curr : Nat) :
    (emitFuncs cfg buf m curr).relocs = (emitKeys cfg curr).reverse ++ m := by
  induction cfg generalizing buf m curr with
  | nil => simp [emitFuncs, emitKeys]
  | cons p rest ih =>
    obtain ⟨f, rfn⟩ := p
    simp only [emitFuncs, emitKeys, ih, emitFlow_relocs, emitFlow_off]
    simp

theorem emitKeysFlow_fst (f : Nat) (flow : List RecoveredInstr) (curr : Nat) :
    (emitKeysFlow f flow curr).map Prod.fst
      = flow.map fun r => ((f, r.instr.ea, r.is_boundary_jmp) : RelocKey) := by
  induction flow generalizing curr with
  | nil => simp [emitKeysFlow]
  | cons r rest ih => simp [emitKeysFlow, ih]

theorem emitKeys_fst (cfg : List (Nat × RecoveredFunc)) (curr : Nat) :
    (emitKeys cfg curr).map Prod.fst = relocKeysSpec cfg := by
  induction cfg generalizing curr with
  | nil => simp [emitKeys, relocKeysSpec]
  | cons p rest ih =>
    obtain ⟨f, rfn⟩ := p
    simp [emitKeys, relocKeysSpec, emitKeysFlow_fst, ih]

/-- C1: `build_relocations` first runs the emitter loop over all functions and
only then starts fixup resolution; the relocation map the whole call returns is
exactly the one the emitter pass produced (no fixup or import-preservation
step ever inserts or overwrites an entry), the emitter pass pushes exactly the
list `emitKeys` of insertions onto the initial map, and those insertions are —
in emission order — exactly one key `(func, func, false)` per function and one
key `(func, instruction ea, is-boundary)` per instruction (`relocKeysSpec`). -/
theorem build_relocations_emitter_then_fixups (dec : Decoder) (asm : Assembler)
    (d : ProtectedInput) (off : Nat) (p : Bool) :
    (build_relocations dec asm d off p).1.global_relocs
        = (emitFuncs d.cfg d.newimgbuffer d.global_relocs off).relocs
    ∧ (emitFuncs d.cfg d.newimgbuffer d.global_relocs off).relocs
        = (emitKeys d.cfg off).reverse ++ d.global_relocs
    ∧ (emitKeys d.cfg off).map Prod.fst = relocKeysSpec d.cfg := by
  refine ⟨?_, emitFuncs_relocs _ _ _ _, emitKeys_fst _ _⟩
  unfold build_relocations
  cases p with
  | false => simp [fixupAllFuncs_global_relocs]
  | true =>
    simp only [if_pos, preserve_original_imports]
    rw [preserveGo_global_relocs, fixupAllFuncs_global_relocs]

/-! Alignment and padding of the emitted layout. -/

theorem opsOf_set_reloc (r : RecoveredInstr) (x : Nat) :
    opsOf { r with reloc_ea := x } = opsOf r := rfl

theorem emitFlow_emittedSize (f : Nat) (flow : List RecoveredInstr) (buf : Buffer)
    (m : List (RelocKey × Nat)) (curr : Nat) :
    emittedSize (emitFlow f flow buf m curr).flow = emittedSize flow := by
  induction flow generalizing buf m curr with
  | nil => rfl
  | cons r rest ih =>
    simp only [emitFlow]
    simp [emittedSize, opsOf_set_reloc] at ih ⊢
    exact ih _ _ _

theorem emitFuncs_aligned (cfg : List (Nat × RecoveredFunc)) :
    ∀ buf m curr, curr % 16 = 0 →
      (∀ q ∈ (emitFuncs cfg buf m curr).cfg, q.2.reloc_ea % 16 = 0)
      ∧ List.Chain' (fun a b : Nat × RecoveredFunc =>
          a.2.reloc_ea + emittedSize a.2.normalized_flow + 8 ≤ b.2.reloc_ea)
          (emitFuncs cfg buf m curr).cfg
      ∧ ∀ hd, ((emitFuncs cfg buf m curr).cfg).head? = some hd → hd.2.reloc_ea = curr := by
  induction cfg with
  | nil =>
    intro buf m curr _
    refine ⟨by simp [emitFuncs], by simp [emitFuncs], ?_⟩
    intro hd h
    simp [emitFuncs] at h
  | cons p rest ih =>
    obtain ⟨f, rfn⟩ := p
    intro buf m curr hc
    have hnext : align_to_16_byte_boundary
        ((emitFlow f rfn.normalized_flow buf (((f, f, false), curr) :: m) curr).off + 8) % 16
        = 0 := align16_mod _
    obtain ⟨ihA, ihB, ihC⟩ := ih
      (emitFlow f rfn.normalized_flow buf (((f, f, false), curr) :: m) curr).buf
      (emitFlow f rfn.normalized_flow buf (((f, f, false), curr) :: m) curr).relocs
      (align_to_16_byte_boundary
        ((emitFlow f rfn.normalized_flow buf (((f, f, false), curr) :: m) curr).off + 8))
      hnext
    refine ⟨?_, ?_, ?_⟩
    · intro q hq
      simp only [emitFuncs, List.mem_cons] at hq
      rcases hq with hq | hq
      · rw [hq]
        exact hc
      · exact ihA q hq
    · show List.Chain' _ (_ :: _)
      rw [List.chain'_cons']
      constructor
      · intro y hy
        have hy2 := ihC y hy
        show curr + emittedSize (emitFlow f rfn.normalized_flow buf
            (((f, f, false), curr) :: m) curr).flow + 8 ≤ y.2.reloc_ea
        rw [emitFlow_emittedSize, hy2]
        calc curr + emittedSize rfn.normalized_flow + 8
            = (emitFlow f rfn.normalized_flow buf (((f, f, false), curr) :: m) curr).off + 8 := by
              rw [emitFlow_off]
          _ ≤ _ := le_align16 _
      · exact ihB
    · intro hd h
      simp only [emitFuncs, List.head?_cons, Option.some_inj] at h
      rw [← h]

/-- C7: starting from a 16-byte-aligned offset, every function the emitter
lays out gets a 16-aligned relocated start, and between two consecutively
emitted functions at least 8 bytes separate the end of the earlier function's
last emitted instruction byte (`reloc_ea + emittedSize`) from the later
function's relocated start. -/
theorem emitter_alignment_and_padding (cfg : List (Nat × RecoveredFunc))
    (buf : Buffer) (m : List (RelocKey × Nat)) (off : Nat) (h : off % 16 = 0) :
    (∀ q ∈ (emitFuncs cfg buf m off).cfg, q.2.reloc_ea % 16 = 0)
    ∧ List.Chain' (fun a b : Nat × RecoveredFunc =>
        a.2.reloc_ea + emittedSize a.2.normalized_flow + 8 ≤ b.2.reloc_ea)
        (emitFuncs cfg buf m off).cfg :=
  ⟨(emitFuncs_aligned cfg buf m off h).1, (emitFuncs_aligned cfg buf m off h).2.1⟩

/-- Witness for C7 on a concrete two-function cfg laid out from offset 16. -/
theorem emitter_alignment_and_padding_witness :
    16 % 16 = 0
    ∧ ((∀ q ∈ (emitFuncs cfg7 emptyBuf [] 16).cfg, q.2.reloc_ea % 16 = 0)
       ∧ List.Chain' (fun a b : Nat × RecoveredFunc =>
           a.2.reloc_ea + emittedSize a.2.normalized_flow + 8 ≤ b.2.reloc_ea)
           (emitFuncs cfg7 emptyBuf [] 16).cfg) :=
  ⟨by decide, emitter_alignment_and_padding cfg7 emptyBuf [] 16 (by decide)⟩

/-! Displacement patch primitive (claims about byte-exactness). -/

/-- C4: for an import or data-flow fixup (both call
`resolve_disp_fixup_and_apply` with `updated_bytes` primed to the original
encoding) with a 4-byte displacement, the patched encoding equals the original
bytes except that the 4 bytes at the recorded displacement offset are replaced
by the little-endian encoding of
`(dest - (reloc_ea + instruction_total_length)) mod 2^32`; every other byte
and the total length are unchanged. -/
theorem disp_fixup_patches_exact_bytes (r : RecoveredInstr) (dst : Nat)
    (h4 : r.instr.dispSize = 4)
    (hub : r.updated_bytes = r.instr.bytes)
    (hfit : r.instr.dispOffset + 4 ≤ r.instr.bytes.length) :
    ∃ r2, resolve_disp_fixup_and_apply r (some dst) = Except.ok r2
      ∧ r2.updated_bytes.length = r.instr.bytes.length
      ∧ (∀ j, j < 4 → r2.updated_bytes.getD (r.instr.dispOffset + j) 0
            = (pack32 (CALC_FIXUP r dst r.instr.size)).getD j 0)
      ∧ (∀ i, i < r.instr.dispOffset → r2.updated_bytes.getD i 0 = r.instr.bytes.getD i 0)
      ∧ (∀ i, r.instr.dispOffset + 4 ≤ i →
            r2.updated_bytes.getD i 0 = r.instr.bytes.getD i 0) := by
  have hres : resolve_disp_fixup_and_apply r (some dst) =
      Except.ok { r with
        updated_bytes := (sliceAssign r.instr.bytes r.instr.dispOffset
          (r.instr.dispOffset + 4) (pack32 (CALC_FIXUP r dst r.instr.size))) } := by
    simp [resolve_disp_fixup_and_apply, h4, hub]
  refine ⟨_, hres, ?_, ?_, ?_, ?_⟩
  · exact sliceAssign_length _ _ _ _ (by omega) hfit (by rw [pack32_length]; omega)
  · intro j hj
    exact sliceAssign_getD_mid _ _ _ _ j (by omega) (by rw [pack32_length]; omega)
  · intro i hi
    exact sliceAssign_getD_lt _ _ _ _ i hi (by omega)
  · intro i hi
    exact sliceAssign_getD_ge _ _ _ _ i (by omega) hfit (by rw [pack32_length]; omega) hi

/-- Witness for C4 on a concrete 7-byte rip-relative `mov` with destination
0x100, relocated to 0x10. -/
theorem disp_fixup_patches_exact_bytes_witness :
    rW4.instr.dispSize = 4 ∧ rW4.updated_bytes = rW4.instr.bytes
    ∧ (∃ r2, resolve_disp_fixup_and_apply rW4 (some 0x100) = Except.ok r2
        ∧ r2.updated_bytes.length = rW4.instr.bytes.length
        ∧ (∀ j, j < 4 → r2.updated_bytes.getD (rW4.instr.dispOffset + j) 0
              = (pack32 (CALC_FIXUP rW4 0x100 rW4.instr.size)).getD j 0)
        ∧ (∀ i, i < rW4.instr.dispOffset → r2.updated_bytes.getD i 0 = rW4.instr.bytes.getD i 0)
        ∧ (∀ i, rW4.instr.dispOffset + 4 ≤ i →
              r2.updated_bytes.getD i 0 = rW4.instr.bytes.getD i 0)) :=
  ⟨by decide, by decide,
   disp_fixup_patches_exact_bytes rW4 0x100 (by decide) (by decide) (by decide)⟩

/-! Length gate after every patch. -/

/-- C5: `update_reloc_in_img` — invoked after every import, control-flow and
data-flow patch — re-decodes the patched bytes at the relocated address; it
raises (and the image is not written for that instruction) exactly when the
decoded length differs from the patched byte length, and writes the patched
bytes at the relocated address exactly when the lengths match. -/
theorem update_reloc_length_gate (dec : Decoder) (buf : Buffer) (r : RecoveredInstr) :
    (r.updated_bytes.length = dec r.updated_bytes r.reloc_ea →
        update_reloc_in_img dec buf r
          = Except.ok (writeBytes buf r.reloc_ea r.updated_bytes))
    ∧ (r.updated_bytes.length ≠ dec r.updated_bytes r.reloc_ea →
        update_reloc_in_img dec buf r = Except.error "ValueError") := by
  constructor
  · intro h
    simp [update_reloc_in_img, h]
  · intro h
    simp [update_reloc_in_img, h]

/-- Witness for C5: a correct decoder admits the write; a decoder reporting a
different length makes the same instruction fault with no write. -/
theorem update_reloc_length_gate_witness :
    (rW5.updated_bytes.length = dec0 rW5.updated_bytes rW5.reloc_ea
      ∧ update_reloc_in_img dec0 emptyBuf rW5
          = Except.ok (writeBytes emptyBuf rW5.reloc_ea rW5.updated_bytes))
    ∧ (rW5.updated_bytes.length ≠ dec1 rW5.updated_bytes rW5.reloc_ea
      ∧ update_reloc_in_img dec1 emptyBuf rW5 = Except.error "ValueError") :=
  ⟨⟨rfl, (update_reloc_length_gate dec0 emptyBuf rW5).1 rfl⟩,
   ⟨by decide, (update_reloc_length_gate dec1 emptyBuf rW5).2 (by decide)⟩⟩

/-! Data-flow identity on the data region. -/

theorem unpack32_sliceAssign (l : List Nat) (a x : Nat) (ha : a + 4 ≤ l.length)
    (hx : x < 4294967296) :
    unpack32 (sliceAssign l a (a + 4) (pack32 x)) a = x := by
  unfold unpack32
  have h0 : (sliceAssign l a (a + 4) (pack32 x)).getD a 0 = (pack32 x).getD 0 0 := by
    have h := sliceAssign_getD_mid l (pack32 x) a (a + 4) 0 (by omega)
      (by rw [pack32_length]; omega)
    simpa using h
  have h1 := sliceAssign_getD_mid l (pack32 x) a (a + 4) 1 (by omega)
    (by rw [pack32_length]; omega)
  have h2 := sliceAssign_getD_mid l (pack32 x) a (a + 4) 2 (by omega)
    (by rw [pack32_length]; omega)
  have h3 := sliceAssign_getD_mid l (pack32 x) a (a + 4) 3 (by omega)
    (by rw [pack32_length]; omega)
  rw [h0, h1, h2, h3]
  simp [pack32, List.getD_cons_zero, List.getD_cons_succ]
  omega

/-- C3: for a data-flow instruction whose rip-relative destination lies inside
the data region, `dataStep` consults the relocation map not at all (its result
is identical under any two maps), the fixup target is the original destination
itself, and the patched displacement — decoded at the relocated address —
resolves back to exactly that destination (`resolve(D) = D`), under the 32-bit
reach bounds every rva of a PE image satisfies. -/
theorem dataflow_data_region_identity (dec : Decoder) (d : ProtectedInput)
    (r : RecoveredInstr)
    (hin : IS_IN_DATA d r.instr.dispDest = true)
    (h4 : r.instr.dispSize = 4)
    (hfit : r.instr.dispOffset + 4 ≤ r.instr.bytes.length)
    (hdec : dec (sliceAssign r.instr.bytes r.instr.dispOffset (r.instr.dispOffset + 4)
          (pack32 (CALC_FIXUP r r.instr.dispDest r.instr.size))) r.reloc_ea
        = r.instr.bytes.length)
    (hb1 : r.reloc_ea + r.instr.size < 2147483648)
    (hb2 : r.instr.dispDest < 2147483648) :
    (∀ m1 m2, dataStep dec { d with global_relocs := m1 } r
        = dataStep dec { d with global_relocs := m2 } r)
    ∧ dataStep dec d r = Except.ok (some (writeBytes d.newimgbuffer r.reloc_ea
        (sliceAssign r.instr.bytes r.instr.dispOffset (r.instr.dispOffset + 4)
          (pack32 (CALC_FIXUP r r.instr.dispDest r.instr.size)))))
    ∧ ripResolved r.reloc_ea r.instr.size
        (unpack32 (sliceAssign r.instr.bytes r.instr.dispOffset (r.instr.dispOffset + 4)
          (pack32 (CALC_FIXUP r r.instr.dispDest r.instr.size))) r.instr.dispOffset)
        = (r.instr.dispDest : Int) := by
  have hlen : (sliceAssign r.instr.bytes r.instr.dispOffset (r.instr.dispOffset + 4)
      (pack32 (CALC_FIXUP r r.instr.dispDest r.instr.size))).length
      = r.instr.bytes.length :=
    sliceAssign_length _ _ _ _ (by omega) hfit (by rw [pack32_length]; omega)
  have hstep : ∀ d' : ProtectedInput, d'.data_lo = d.data_lo → d'.data_hi = d.data_hi →
      d'.newimgbuffer = d.newimgbuffer →
      dataStep dec d' r = Except.ok (some (writeBytes d.newimgbuffer r.reloc_ea
        (sliceAssign r.instr.bytes r.instr.dispOffset (r.instr.dispOffset + 4)
          (pack32 (CALC_FIXUP r r.instr.dispDest r.instr.size))))) := by
    intro d' hlo hhi hbuf
    have hin' : IS_IN_DATA d' r.instr.dispDest = true := by
      unfold IS_IN_DATA at hin ⊢
      rw [hlo, hhi]
      exact hin
    simp only [dataStep, hin', if_true]
    simp only [resolve_disp_fixup_and_apply, CALC_FIXUP_set_ub]
    rw [if_neg (by omega)]
    simp only [update_reloc_in_img, hbuf, CALC_FIXUP_set_ub]
    rw [if_neg (by rw [hlen, hdec]; omega)]
  refine ⟨fun m1 m2 => ?_, hstep d rfl rfl rfl, ?_⟩
  · rw [hstep { d with global_relocs := m1 } rfl rfl rfl,
        hstep { d with global_relocs := m2 } rfl rfl rfl]
  · rw [unpack32_sliceAssign r.instr.bytes r.instr.dispOffset
        (CALC_FIXUP r r.instr.dispDest r.instr.size) hfit
        (fixup32_lt r.instr.dispDest (r.reloc_ea + r.instr.size))]
    exact ripResolved_fixup32 r.reloc_ea r.instr.size r.instr.dispDest hb1 hb2

/-- Witness for C3 on a concrete rip-relative `mov` whose destination 0x2500
lies in the data region [0x2000, 0x3000). -/
theorem dataflow_data_region_identity_witness :
    IS_IN_DATA dW3 rW3.instr.dispDest = true
    ∧ dataStep dec0 dW3 rW3 = Except.ok (some (writeBytes dW3.newimgbuffer rW3.reloc_ea
        (sliceAssign rW3.instr.bytes rW3.instr.dispOffset (rW3.instr.dispOffset + 4)
          (pack32 (CALC_FIXUP rW3 rW3.instr.dispDest rW3.instr.size)))))
    ∧ ripResolved rW3.reloc_ea rW3.instr.size
        (unpack32 (sliceAssign rW3.instr.bytes rW3.instr.dispOffset (rW3.instr.dispOffset + 4)
          (pack32 (CALC_FIXUP rW3 rW3.instr.dispDest rW3.instr.size))) rW3.instr.dispOffset)
        = (rW3.instr.dispDest : Int) :=
  ⟨by decide,
   (dataflow_data_region_identity dec0 dW3 rW3 (by decide) (by decide) (by decide)
      (by decide) (by decide) (by decide)).2.1,
   (dataflow_data_region_identity dec0 dW3 rW3 (by decide) (by decide) (by decide)
      (by decide) (by decide) (by decide)).2.2⟩

/-! Control-flow jump fixups. -/

/-- C2 (amended): a non-import unconditional or conditional jump resolves its
target through the relocation map under the key
`(owning function original address, target, false)` — the boundary flag in the
lookup key is always the literal `false`, not the instruction's own flag — and
the patch overwrites only the last 4 bytes of the fixed placeholder (5 bytes
for jmp, 6 for jcc) with `(target - (reloc_ea + placeholder_length)) mod 2^32`
little-endian, written through the length gate. -/
theorem jump_fixup_resolution (dec : Decoder) (asm : Assembler) (d : ProtectedInput)
    (rfn : RecoveredFunc) (r : RecoveredInstr) (v : Nat)
    (hobf : r.is_obf_import = false)
    (hj : r.instr.xclass = XClass.jmp ∨ r.instr.xclass = XClass.jcc)
    (hget : relocGet d.global_relocs (rfn.func_start_ea, r.instr.op1Imm, false) = some v)
    (hv : v ≠ 0)
    (hlen : r.updated_bytes.length = if r.instr.xclass = XClass.jmp then 5 else 6)
    (hdec : dec (sliceAssign r.updated_bytes (if r.instr.xclass = XClass.jmp then 1 else 2)
          (if r.instr.xclass = XClass.jmp then 5 else 6)
          (pack32 (CALC_FIXUP r v (if r.instr.xclass = XClass.jmp then 5 else 6))))
          r.reloc_ea
        = r.updated_bytes.length) :
    ctrlStep dec asm rfn d r = Except.ok (some (writeBytes d.newimgbuffer r.reloc_ea
      (sliceAssign r.updated_bytes (if r.instr.xclass = XClass.jmp then 1 else 2)
        (if r.instr.xclass = XClass.jmp then 5 else 6)
        (pack32 (CALC_FIXUP r v (if r.instr.xclass = XClass.jmp then 5 else 6)))))) := by
  rcases hj with hj | hj
  · have hcall : r.instr.is_call = false := by simp [Instr.is_call, hj]
    have hjmp : r.instr.is_jmp = true := by simp [Instr.is_jmp, hj]
    simp only [if_pos hj] at hlen hdec ⊢
    have hplen : (sliceAssign r.updated_bytes 1 5 (pack32 (CALC_FIXUP r v 5))).length = 5 := by
      rw [sliceAssign_length _ _ _ _ (by omega) (by omega) (by rw [pack32_length]), hlen]
    simp only [ctrlStep, hobf, Bool.false_eq_true, if_false, hcall]
    rw [hget]
    simp only [truthyGet]
    rw [if_neg hv]
    simp only [resolve_imm_fixup_and_apply, hcall, hjmp, Bool.or_true, Bool.true_or,
      Bool.not_true, Bool.false_eq_true, if_false, if_true, eq_self_iff_true]
    rw [hlen]
    simp only [not_true, if_false]
    rw [if_neg (by omega)]
    simp only [update_reloc_in_img]
    rw [if_neg (by rw [hplen, hdec, hlen]; omega)]
  · have hcall : r.instr.is_call = false := by simp [Instr.is_call, hj]
    have hjmp : r.instr.is_jmp = false := by simp [Instr.is_jmp, hj]
    have hjcc : r.instr.is_jcc = true := by simp [Instr.is_jcc, hj]
    have hnj : ¬(r.instr.xclass = XClass.jmp) := by rw [hj]; intro hc; cases hc
    simp only [if_neg hnj] at hlen hdec ⊢
    have hplen : (sliceAssign r.updated_bytes 2 6 (pack32 (CALC_FIXUP r v 6))).length = 6 := by
      rw [sliceAssign_length _ _ _ _ (by omega) (by omega) (by rw [pack32_length]), hlen]
    simp only [ctrlStep, hobf, Bool.false_eq_true, if_false, hcall]
    rw [hget]
    simp only [truthyGet]
    rw [if_neg hv]
    simp only [resolve_imm_fixup_and_apply, hcall, hjmp, hjcc, Bool.or_true, Bool.true_or,
      Bool.false_or, Bool.or_false, Bool.not_true, Bool.false_eq_true, if_false, if_true,
      eq_self_iff_true]
    rw [hlen]
    simp only [not_true, if_false]
    rw [if_neg (by omega)]
    simp only [update_reloc_in_img]
    rw [if_neg (by rw [hplen, hdec, hlen]; omega)]

/-- Witness for the amended C2 on a concrete non-boundary jmp whose target
resolves to 0x200 through the flag-`false` key. -/
theorem jump_fixup_resolution_witness :
    relocGet dW2.global_relocs (rfnC2.func_start_ea, rW2.instr.op1Imm, false) = some 0x200
    ∧ ctrlStep dec0 asm0 rfnC2 dW2 rW2
        = Except.ok (some (writeBytes dW2.newimgbuffer rW2.reloc_ea
          (sliceAssign rW2.updated_bytes 1 5 (pack32 (CALC_FIXUP rW2 0x200 5))))) :=
  ⟨rfl, jump_fixup_resolution dec0 asm0 dW2 rfnC2 rW2 0x200 rfl (Or.inl rfl) rfl
    (by decide) rfl rfl⟩

/-- C2 counterexample: `rC2` is a boundary jump, and the key the claim names —
`(owning function, target, instruction's is-boundary flag) = (0x20, 0x40,
true)` — IS bound in the relocation map; yet the control-flow pass raises
`[JxxJmp_Reloc]` and leaves the state untouched, because the code looks up the
flag-`false` key `(0x20, 0x40, false)` instead of carrying the flag through. -/
theorem jump_fixup_key_counterexample :
    relocGet dC2.global_relocs
        (rfnC2.func_start_ea, rC2.instr.op1Imm, rC2.is_boundary_jmp) = some 0x2000
    ∧ fixLoop (ctrlStep dec0 asm0 rfnC2) dC2 [rC2] = (dC2, some "[JxxJmp_Reloc]") :=
  ⟨rfl, rfl⟩

/-! Import fixups with missing metadata. -/

/-- C8 (amended): for a non-boundary import-classified instruction, a missing
`d.imports` entry is only reported and the instruction is skipped — no fault is
raised and no patch is written, the pass continues with the remaining call
sites; whereas an entry whose api has no rva in `d.import_to_rva_map` makes the
pass fault before writing any patch (the `None` target blows up inside the
fixup computation), never patching with a null or placeholder target. -/
theorem import_missing_metadata_behaviour (dec : Decoder) (d : ProtectedInput)
    (r : RecoveredInstr) (rest : List RecoveredInstr)
    (hb : r.is_boundary_jmp = false) :
    (assocGet d.imports r.instr.ea = none →
        fixLoop (importsStep dec) d (r :: rest) = fixLoop (importsStep dec) d rest)
    ∧ (∀ api dll, assocGet d.imports r.instr.ea = some (ImpVal.entry api dll) →
        assocGet d.import_to_rva_map api = none →
        ∃ e, fixLoop (importsStep dec) d (r :: rest) = (d, some e)) := by
  constructor
  · intro hmiss
    simp only [fixLoop, importsStep, hb, Bool.false_eq_true, if_false, hmiss]
  · intro api dll hent hrva
    by_cases h4 : r.instr.dispSize = 4
    · refine ⟨"TypeError", ?_⟩
      simp only [fixLoop, importsStep, hb, Bool.false_eq_true, if_false, hent, hrva]
      simp [resolve_disp_fixup_and_apply, h4]
    · refine ⟨"AssertionError", ?_⟩
      simp only [fixLoop, importsStep, hb, Bool.false_eq_true, if_false, hent, hrva]
      simp [resolve_disp_fixup_and_apply, h4]

/-- Witness for the amended C8: an import entry whose api has no assigned rva
makes the pass fault with the state unchanged (no patch). -/
theorem import_missing_metadata_witness :
    rC8.is_boundary_jmp = false
    ∧ assocGet dW8.imports rC8.instr.ea = some (ImpVal.entry "Foo" "bar.dll")
    ∧ assocGet dW8.import_to_rva_map "Foo" = none
    ∧ ∃ e, fixLoop (importsStep dec0) dW8 [rC8] = (dW8, some e) :=
  ⟨rfl, rfl, rfl,
   (import_missing_metadata_behaviour dec0 dW8 rC8 [] rfl).2 "Foo" "bar.dll" rfl rfl⟩

/-- C8 counterexample: for the concrete call site `rC8` whose import entry is
absent from `d.imports`, the import pass raises nothing at all — it returns
with no error and the state unchanged (the source only runs `input(...)` and
`continue`s), contradicting the claim that a fault is raised for that
instruction. -/
theorem import_absent_entry_counterexample :
    assocGet dC8.imports rC8.instr.ea = none
    ∧ fixLoop (importsStep dec0) dC8 [rC8] = (dC8, none) :=
  ⟨rfl, rfl⟩

/-! Selective-mode clearing. -/

theorem bufFind_start_le (buf : Buffer) (size start f0 : Nat) (pat : List Nat)
    (h : bufFind buf size pat start = some f0) : start ≤ f0 := by
  unfold bufFind at h
  have h2 := List.find?_some h
  simp only [Bool.and_eq_true, decide_eq_true_eq] at h2
  exact h2.1

/-- C9 (amended): the SELECTIVE-mode clearing step zero-fills exactly the bytes
from the selected function's START address (`selective_func_rva`) through the
end of the found sentinel inclusive — every byte outside `[start, found +
len(END_MARKER))` is untouched; and when the sentinel is not found, the
hardcoded fallback offset 0x15311 is used and the step still succeeds, with no
warning surfaced (the `raise` is commented out in the source). -/
theorem selective_clear_spec (buf : Buffer) (imgSize start : Nat) :
    (∀ f0, bufFind buf imgSize END_MARKER start = some f0 →
        selective_clear buf imgSize start
          = Except.ok (zeroFill buf start (f0 + END_MARKER.length), f0))
    ∧ (bufFind buf imgSize END_MARKER start = none →
        start ≤ 0x15311 + END_MARKER.length →
        selective_clear buf imgSize start
          = Except.ok (zeroFill buf start (0x15311 + END_MARKER.length), 0x15311))
    ∧ (∀ a b i, a ≤ i → i < b → zeroFill buf a b i = 0)
    ∧ (∀ a b i, i < a ∨ b ≤ i → zeroFill buf a b i = buf i) := by
  refine ⟨?_, ?_, ?_, ?_⟩
  · intro f0 hf
    have hs := bufFind_start_le buf imgSize start f0 END_MARKER hf
    simp only [selective_clear, hf]
    rw [if_neg (by omega)]
  · intro hf hle
    simp only [selective_clear, hf]
    rw [if_neg (by omega)]
  · intro a b i h1 h2
    simp [zeroFill, h1, h2]
  · intro a b i h
    unfold zeroFill
    rw [if_neg (by omega)]

/-- Witness for the amended C9: on a concrete image with the sentinel at
offset 1 and the function at offset 0, the clearing zero-fills `[0, 15)`. -/
theorem selective_clear_spec_witness :
    bufFind bufC9 15 END_MARKER 0 = some 1
    ∧ selective_clear bufC9 15 0
        = Except.ok (zeroFill bufC9 0 (1 + END_MARKER.length), 1) :=
  ⟨by decide, (selective_clear_spec bufC9 15 0).1 1 (by decide)⟩

/-- C9 counterexample: on `dC9` the sentinel is found at offset 1, yet the byte
AT the selected function's start (offset 0, value 0x90 — a byte strictly
before the function's end under any reading, sitting before the sentinel) is
zeroed by the clearing step of `rebuild_output`; the claim says only bytes from
the function's END through the sentinel end are zeroed and all other bytes are
left untouched by this step. -/
theorem selective_clear_counterexample :
    bufFind dC9.newimgbuffer dC9.imgSize END_MARKER dC9.selective_func_rva = some 1
    ∧ dC9.newimgbuffer 0 = 0x90
    ∧ (rebuild_output dec0 asm0 dC9 false).toOption.map (fun p => p.1.newimgbuffer 0)
        = some 0 := by
  refine ⟨by decide, by decide, by decide⟩

/-! SELECTIVE-mode starting offset. -/

/-- C6 (code bug): in SELECTIVE mode `rebuild_output` still passes its local
`func_rva = 0x1000` to `Relocation.build_relocations` — the assignment on the
selective path goes to the attribute `d.func_rva`, not to the local that is
passed — so the first emitted function is relocated to 0x1000, not to
`d.selective_func_rva = 0x5000` as the module's own docstrings describe. -/
theorem selective_starting_off_bug :
    dC6.protection_type = ProtectionType.SELECTIVE
    ∧ dC6.selective_func_rva = 0x5000
    ∧ (rebuild_output dec0 asm0 dC6 false).toOption.map
        (fun p => (p.1.func_rva, p.1.cfg.map fun q => q.2.reloc_ea))
        = some (some 0x5000, [0x1000]) := by
  refine ⟨rfl, rfl, by decide⟩

/-! Import preservation. -/

/-- C10 (code bug): `preserve_original_imports` on a state whose first
preserved call site has no assigned rva — although the site with api "B" does
have one — aborts the whole pass with an uncaught `TypeError` (the `if not
new_rva:` guard only logs and execution falls into `new_rva - (...)` on
`None`), returning the state completely unchanged: the remaining call site is
never patched, contradicting the claim that the pass continues past the miss. -/
theorem preserve_missing_rva_aborts :
    assocGet dC10.import_to_rva_map "A" = none
    ∧ assocGet dC10.import_to_rva_map "B" = some 0x3000
    ∧ preserve_original_imports dC10 = (dC10, some "TypeError") :=
  ⟨rfl, rfl, rfl⟩

end RecoverOutput
